import Mathlib

/-!
# aws-req: hostname resolution and the sign-then-send pipeline

A shallow embedding of `internal/cage/aws/v1/request/request.go`:

* `ParseHostname` derives the signing scope (service, region) from a hostname;
* `Do` resolves the scope from the request's URL host, signs the request and
  performs it with a fresh HTTP client, measuring the round-trip time.

Go strings are byte sequences (`len` and slicing count bytes), so they are
embedded as lists of bytes.  The AWS signer, the HTTP client and the clock are
external collaborators of the package; they are embedded as abstract
operations over an arbitrary world state.

The package also compiles a regular expression, `awsSubdomainRe`, when it is
loaded; no function uses it, so it has no counterpart here.
-/

namespace AwsReq

/-! ## Go strings -/

/-- A Go string: an immutable sequence of bytes. -/
abbrev GoString := List UInt8

/-- The bytes (UTF-8) of a string literal of the source. -/
def str (s : String) : GoString := s.toUTF8.data.toList

/-- The separator byte of the literal `"."` handed to `strings.Split`. -/
def dot : UInt8 := 46

/-- Go's `strings.Split(s, sep)` for a one-byte separator: the substrings of `s`
between the occurrences of `sep`.  A string without `sep` (the empty string
included) yields the one-element slice holding the string itself. -/
def Split (sep : UInt8) : GoString → List GoString
  | [] => [[]]
  | c :: cs =>
    if c = sep then [] :: Split sep cs
    else
      match Split sep cs with
      | [] => [[c]]
      | p :: ps => (c :: p) :: ps

/-- Go's `strings.Join(parts, sep)` for a one-byte separator (used to state
what `Split` returns; the package itself never joins). -/
def Join (sep : UInt8) : List GoString → GoString
  | [] => []
  | [p] => p
  | p :: q :: ps => p ++ sep :: Join sep (q :: ps)

/-! ## Errors -/

/-- A Go `error` value, identified by its message. -/
structure GoError where
  msg : GoString
deriving DecidableEq, Repr

/-- The call `errors.Errorf("failed to parse domain [%s]", hostname)`. -/
def parseDomainError (hostname : GoString) : GoError :=
  { msg := str "failed to parse domain [" ++ hostname ++ str "]" }

/-- The call `errors.WithStack(err)` on a non-nil error: the same message, annotated
with a stack trace (not modelled). -/
def WithStack (e : GoError) : GoError := e

/-- The call `errors.Wrap(err, message)` on a non-nil error. -/
def Wrap (e : GoError) (message : GoString) : GoError :=
  { msg := message ++ str ": " ++ e.msg }

/-! ## ParseHostname -/

/-- The constant `endpoints.UsEast1RegionID` of the AWS SDK. -/
def UsEast1RegionID : GoString := str "us-east-1"

/-- The three results `(service, region, err)` of `ParseHostname`; `err = none`
is Go's `nil` error. -/
structure ParseResult where
  service : GoString
  region : GoString
  err : Option GoError
deriving DecidableEq, Repr

/-- The function `ParseHostname` of `request.go`:

```go
if len(hostname) < 15 { return "", "", errors.Errorf(...) }
parts := strings.Split(hostname[:len(hostname)-14], ".")
switch len(parts) {
case 2:  return parts[0], parts[1], nil
case 1:  return parts[0], endpoints.UsEast1RegionID, nil
default: return "", "", errors.Errorf(...)
}
```

The `switch` on `len(parts)` is the match on the shape of the list. -/
def ParseHostname (hostname : GoString) : ParseResult :=
  if hostname.length < 15 then
    { service := [], region := [], err := some (parseDomainError hostname) }
  else
    match Split dot (hostname.take (hostname.length - 14)) with
    | [p0, p1] => { service := p0, region := p1, err := none }
    | [p0] => { service := p0, region := UsEast1RegionID, err := none }
    | _ => { service := [], region := [], err := some (parseDomainError hostname) }

/-- The part of a hostname that `ParseHostname` splits: all but the final
fourteen bytes (`hostname[:len(hostname)-14]`). -/
def scopePart (hostname : GoString) : GoString :=
  hostname.take (hostname.length - 14)

/-- The failure result of `ParseHostname`. -/
def parseFailure (hostname : GoString) : ParseResult :=
  { service := [], region := [], err := some (parseDomainError hostname) }

/-! ## Requests, inputs and outputs -/

/-- The fields of `url.URL` that the command fills in. -/
structure URL where
  Scheme : GoString
  Host : GoString
  Path : GoString
  RawQuery : GoString
deriving DecidableEq, Repr

/-- The fields of `http.Request` that the command fills in. -/
structure Request where
  Method : GoString
  URL : URL
  Header : List (GoString × List GoString)
deriving DecidableEq, Repr

/-- The struct `Input`.  `Req` is the request behind the pointer `input.Req`, as
built by `http.NewRequest` (the pointer and its `URL` are non-nil).  `Body = none`
is the nil interface value, for which the type assertion
`input.Body.(io.ReadSeeker)` reports `ok = false`. -/
structure Input (Creds Body : Type) where
  Req : Request
  Creds : Creds
  Body : Option Body
deriving DecidableEq, Repr

/-- The struct `Output`; `TotalTime` is a `time.Duration`, a signed 64-bit count
of nanoseconds. -/
structure Output (Response : Type) where
  Res : Option Response
  TotalTime : Int
deriving DecidableEq, Repr

/-! ## Clock readings and durations -/

/-- The monotonic clock reading carried by a result of `time.Now()`: nanoseconds
since the process started, a non-negative signed 64-bit integer. -/
abbrev MonoTime := Fin (2 ^ 63)

/-- The largest `time.Duration`. -/
def maxDuration : Int := 2 ^ 63 - 1

/-- The smallest `time.Duration`. -/
def minDuration : Int := -(2 ^ 63)

/-- Two's complement wrap-around of a signed 64-bit result. -/
def wrapInt64 (x : Int) : Int := (x + 2 ^ 63) % 2 ^ 64 - 2 ^ 63

/-- The subtraction of two monotonic readings in `Time.Sub`:

```go
d := Duration(t - u)
if d < 0 && t > u { return maxDuration }
if d > 0 && t < u { return minDuration }
return d
```
-/
def subMono (t u : Int) : Int :=
  let d := wrapInt64 (t - u)
  if d < 0 ∧ t > u then maxDuration
  else if d > 0 ∧ t < u then minDuration
  else d

/-- The call `time.Since(start)` evaluated when the clock reads `now`, that is
`time.Now().Sub(start)`. -/
def Since (start now : MonoTime) : Int :=
  subMono (now.val : Int) (start.val : Int)

/-! ## The external operations -/

/-- The collaborators of `Do`, as operations on a world state `σ`:
`now` is `time.Now()`, `sign` is
`v4.NewSigner(creds).Sign(req, body, service, region, t)`, which may rewrite the
request it is given in place and reports an error or `nil`, and `clientDo` is
`(&http.Client{}).Do(req)`. -/
structure Env (σ Creds Body Response : Type) where
  now : σ → MonoTime × σ
  sign : Creds → Request → Option Body → GoString → GoString → MonoTime → σ →
    (Request × Option GoError) × σ
  clientDo : Request → σ → (Option Response × Option GoError) × σ

/-- What `Do` asks of its collaborators, in the order it asks. -/
inductive Event (Creds Body : Type) where
  | now (t : MonoTime)
  | sign (creds : Creds) (req : Request) (body : Option Body)
      (service region : GoString) (t : MonoTime)
  | clientDo (req : Request)
deriving DecidableEq, Repr

/-- The results `(output, err)` of `Do` together with its effects: the request
behind `input.Req` when `Do` returns, the world, and the calls made. -/
structure DoResult (σ Creds Body Response : Type) where
  output : Option (Output Response)
  err : Option GoError
  req : Request
  world : σ
  trace : List (Event Creds Body)
deriving DecidableEq, Repr

/-- The function `Do` of `request.go`: resolve the scope from the URL host and
stop on failure; sign (with the body when one is present, with an explicit `nil`
otherwise) and stop on failure; read the clock, perform the request and stop on
failure; read the clock again and return the response with the elapsed time. -/
def Do {σ Creds Body Response : Type} (env : Env σ Creds Body Response)
    (input : Input Creds Body) (w : σ) : DoResult σ Creds Body Response :=
  let parsed := ParseHostname input.Req.URL.Host
  match parsed.err with
  | some e =>
    { output := none, err := some (WithStack e), req := input.Req, world := w, trace := [] }
  | none =>
    let t0 := env.now w
    let signed :=
      match input.Body with
      | some b => env.sign input.Creds input.Req (some b) parsed.service parsed.region t0.1 t0.2
      | none => env.sign input.Creds input.Req none parsed.service parsed.region t0.1 t0.2
    let signEvent : Event Creds Body :=
      match input.Body with
      | some b => .sign input.Creds input.Req (some b) parsed.service parsed.region t0.1
      | none => .sign input.Creds input.Req none parsed.service parsed.region t0.1
    match signed.1.2 with
    | some signErr =>
      { output := none, err := some (Wrap signErr (str "failed to sign request")),
        req := signed.1.1, world := signed.2, trace := [.now t0.1, signEvent] }
    | none =>
      let reqStart := env.now signed.2
      let done := env.clientDo signed.1.1 reqStart.2
      match done.1.2 with
      | some doErr =>
        { output := none, err := some (Wrap doErr (str "failed to perform request")),
          req := signed.1.1, world := done.2,
          trace := [.now t0.1, signEvent, .now reqStart.1, .clientDo signed.1.1] }
      | none =>
        let t2 := env.now done.2
        { output := some { Res := done.1.1, TotalTime := Since reqStart.1 t2.1 },
          err := none, req := signed.1.1, world := t2.2,
          trace := [.now t0.1, signEvent, .now reqStart.1, .clientDo signed.1.1, .now t2.1] }

/-! ## Observing a run of `Do` -/

section Observe

variable {σ Creds Body Response : Type}

/-- The first stage succeeds: `ParseHostname` returns a nil error on the URL host. -/
abbrev parseOk (input : Input Creds Body) : Prop :=
  (ParseHostname input.Req.URL.Host).err = none

/-- The second stage, when `Do` reaches it: the signer is handed the credentials,
the request, the body, the scope resolved from the URL host and a fresh clock
reading.  It returns the request as rewritten, its error, and the next world. -/
def signStage (env : Env σ Creds Body Response) (input : Input Creds Body) (w : σ) :
    (Request × Option GoError) × σ :=
  env.sign input.Creds input.Req input.Body
    (ParseHostname input.Req.URL.Host).service (ParseHostname input.Req.URL.Host).region
    (env.now w).1 (env.now w).2

/-- The event of the call made in `signStage`. -/
def signEvent (env : Env σ Creds Body Response) (input : Input Creds Body) (w : σ) :
    Event Creds Body :=
  .sign input.Creds input.Req input.Body
    (ParseHostname input.Req.URL.Host).service (ParseHostname input.Req.URL.Host).region
    (env.now w).1

/-- The second stage succeeds: the signer returns a nil error. -/
abbrev signOk (env : Env σ Creds Body Response) (input : Input Creds Body) (w : σ) : Prop :=
  (signStage env input w).1.2 = none

/-- The clock reading `reqStart`, taken once the signer has returned and right
before the client is invoked. -/
def reqStart (env : Env σ Creds Body Response) (input : Input Creds Body) (w : σ) :
    MonoTime × σ :=
  env.now (signStage env input w).2

/-- The third stage, when `Do` reaches it: the client performs the signed request. -/
def clientStage (env : Env σ Creds Body Response) (input : Input Creds Body) (w : σ) :
    (Option Response × Option GoError) × σ :=
  env.clientDo (signStage env input w).1.1 (reqStart env input w).2

/-- The third stage succeeds: the client returns a nil error. -/
abbrev clientOk (env : Env σ Creds Body Response) (input : Input Creds Body) (w : σ) : Prop :=
  (clientStage env input w).1.2 = none

/-- The clock reading taken by `time.Since`, right after the client has returned. -/
def reqEnd (env : Env σ Creds Body Response) (input : Input Creds Body) (w : σ) :
    MonoTime × σ :=
  env.now (clientStage env input w).2

/-- The two collaborators that `Do` may stop at. -/
inductive Call where
  | signer
  | client
deriving DecidableEq, Repr

/-- The signer and client invocations of a trace, in order. -/
def calls : List (Event Creds Body) → List Call
  | [] => []
  | .now _ :: es => calls es
  | .sign _ _ _ _ _ _ :: es => .signer :: calls es
  | .clientDo _ :: es => .client :: calls es

/-- The `(service, region)` pairs handed to the signer in a trace, in order. -/
def signerScopes : List (Event Creds Body) → List (GoString × GoString)
  | [] => []
  | .now _ :: es => signerScopes es
  | .sign _ _ _ service region _ :: es => (service, region) :: signerScopes es
  | .clientDo _ :: es => signerScopes es

end Observe

/-! ## Recording the calls that are really made -/

section Logged

variable {σ Creds Body Response : Type}

/-- The environment `env` with a recorder in front of each operation: the world
carries a log, and every application of `now`, `sign` or `clientDo` runs the
operation of `env` unchanged and appends the call, with the arguments it was
given, to the log. -/
def logged (env : Env σ Creds Body Response) :
    Env (σ × List (Event Creds Body)) Creds Body Response where
  now := fun wl =>
    ((env.now wl.1).1, ((env.now wl.1).2, wl.2 ++ [.now (env.now wl.1).1]))
  sign := fun creds req body service region t wl =>
    ((env.sign creds req body service region t wl.1).1,
      ((env.sign creds req body service region t wl.1).2,
        wl.2 ++ [.sign creds req body service region t]))
  clientDo := fun req wl =>
    ((env.clientDo req wl.1).1, ((env.clientDo req wl.1).2, wl.2 ++ [.clientDo req]))

/-- The calls that a run of `Do` makes, as recorded by the environment itself:
the log left in the world when `Do` runs on `logged env` from an empty log. -/
def callLog (env : Env σ Creds Body Response) (input : Input Creds Body) (w : σ) :
    List (Event Creds Body) :=
  (Do (logged env) input (w, [])).world.2

end Logged

/-! ## A concrete environment -/

/-- A toy environment: the world is a nanosecond counter; the signer needs
non-empty credentials, prepends an `Authorization` header and takes 3 ns; the
client answers `200` to `https` requests after 40 ns and fails otherwise. -/
def demoEnv : Env Nat GoString GoString Nat where
  now := fun w => (⟨w % 2 ^ 63, Nat.mod_lt _ (Nat.pos_of_ne_zero (by decide))⟩, w)
  sign := fun creds req _ service region _ w =>
    if creds = [] then ((req, some { msg := str "NoCredentialProviders" }), w + 3)
    else
      (({ req with Header := (str "Authorization", [creds ++ service ++ region]) :: req.Header },
        none), w + 3)
  clientDo := fun req w =>
    if req.URL.Scheme = str "https" then ((some 200, none), w + 40)
    else ((none, some { msg := str "unsupported protocol scheme" }), w + 1)

/-- The documented EC2 request: `GET https://ec2.amazonaws.com/?Action=...`, no body. -/
def demoInput : Input GoString GoString where
  Req :=
    { Method := str "GET"
      URL :=
        { Scheme := str "https", Host := str "ec2.amazonaws.com", Path := str "/"
          RawQuery := str "Action=DescribeAvailabilityZones&Version=2016-11-15" }
      Header := [] }
  Creds := str "AKIDEXAMPLE"
  Body := none

/-- Another request to the same host: a `POST` with a body, a header and other
credentials. -/
def demoPost : Input GoString GoString where
  Req :=
    { Method := str "POST"
      URL :=
        { Scheme := str "https", Host := str "ec2.amazonaws.com", Path := str "/prod/endpoint"
          RawQuery := [] }
      Header := [(str "Content-Type", [str "application/json"])] }
  Creds := str "AKIDOTHER"
  Body := some (str "payload")

/-- The documented API Gateway request, with the host of the usage examples. -/
def demoGateway : Input GoString GoString where
  Req :=
    { Method := str "POST"
      URL :=
        { Scheme := str "https", Host := str "X.execute-api.us-east-1.amazonaws.com"
          Path := str "/prod/endpoint", RawQuery := [] }
      Header := [(str "Content-Type", [str "application/json"])] }
  Creds := str "AKIDEXAMPLE"
  Body := some (str "payload")

/-! ## Facts about `Split` -/

theorem Split_ne_nil (sep : UInt8) (s : GoString) : Split sep s ≠ [] := by
  induction s with
  | nil => simp [Split]
  | cons c cs ih =>
    unfold Split
    split
    · simp
    · split <;> simp

theorem Split_of_not_mem (sep : UInt8) (a : GoString) (h : sep ∉ a) :
    Split sep a = [a] := by
  induction a with
  | nil => rfl
  | cons c cs ih =>
    have hc : c ≠ sep := fun e => h (by simp [e])
    have hcs : sep ∉ cs := fun m => h (List.mem_cons_of_mem _ m)
    simp [Split, hc, ih hcs]

theorem Split_append_sep (sep : UInt8) (a b : GoString) (h : sep ∉ a) :
    Split sep (a ++ sep :: b) = a :: Split sep b := by
  induction a with
  | nil => simp [Split]
  | cons c cs ih =>
    have hc : c ≠ sep := fun e => h (by simp [e])
    have hcs : sep ∉ cs := fun m => h (List.mem_cons_of_mem _ m)
    simp [Split, hc, ih hcs]

/-- The loop of Go's `genSplit`: cut at the first separator (`Index`), go on with
the rest; without a separator the remainder is the last element. -/
theorem Split_unfold (sep : UInt8) (s : GoString) :
    Split sep s =
      if sep ∈ s then s.take (s.indexOf sep) :: Split sep (s.drop (s.indexOf sep + 1))
      else [s] := by
  induction s with
  | nil => simp [Split]
  | cons c cs ih =>
    by_cases hc : c = sep
    · subst hc
      simp [Split]
    · have hc' : ¬ sep = c := fun e => hc e.symm
      by_cases hm : sep ∈ cs
      · rw [if_pos hm] at ih
        conv_lhs => unfold Split
        rw [if_neg hc, ih]
        simp [hm, List.indexOf_cons_ne _ hc]
      · rw [if_neg hm] at ih
        conv_lhs => unfold Split
        rw [if_neg hc, ih]
        simp [hm, hc']

theorem Split_length (sep : UInt8) (s : GoString) :
    (Split sep s).length = s.count sep + 1 := by
  induction s with
  | nil => rfl
  | cons c cs ih =>
    unfold Split
    by_cases hc : c = sep
    · subst hc
      simp [ih]
    · have hne : (c == sep) = false := by simpa using hc
      rw [if_neg hc, List.count_cons, hne]
      cases hsp : Split sep cs with
      | nil => exact absurd hsp (Split_ne_nil sep cs)
      | cons p ps =>
        rw [hsp] at ih
        simpa using ih

theorem Join_Split (sep : UInt8) (s : GoString) : Join sep (Split sep s) = s := by
  induction s with
  | nil => rfl
  | cons c cs ih =>
    unfold Split
    by_cases hc : c = sep
    · subst hc
      rw [if_pos rfl]
      cases hsp : Split c cs with
      | nil => exact absurd hsp (Split_ne_nil c cs)
      | cons p ps =>
        rw [hsp] at ih
        simp [Join, ih]
    · rw [if_neg hc]
      cases hsp : Split sep cs with
      | nil => exact absurd hsp (Split_ne_nil sep cs)
      | cons p ps =>
        rw [hsp] at ih
        cases ps with
        | nil => simpa [Join] using ih
        | cons q qs =>
          simp only [Join] at ih ⊢
          simp [ih]

theorem Split_not_mem (sep : UInt8) (s : GoString) :
    ∀ p ∈ Split sep s, sep ∉ p := by
  induction s with
  | nil => simp [Split]
  | cons c cs ih =>
    unfold Split
    by_cases hc : c = sep
    · subst hc
      rw [if_pos rfl]
      intro p hp
      rcases List.mem_cons.1 hp with rfl | hp
      · simp
      · exact ih p hp
    · rw [if_neg hc]
      cases hsp : Split sep cs with
      | nil => exact absurd hsp (Split_ne_nil sep cs)
      | cons q qs =>
        rw [hsp] at ih
        intro p hp
        rcases List.mem_cons.1 hp with rfl | hp
        · intro hm
          rcases List.mem_cons.1 hm with e | hm
          · exact hc e.symm
          · exact ih q (List.mem_cons_self _ _) hm
        · exact ih p (List.mem_cons_of_mem _ hp)

/-! ## Facts about `ParseHostname` -/

theorem baseDomain_length : (str ".amazonaws.com").length = 14 := by decide

theorem str_dot : str "." = [dot] := by decide

theorem ParseHostname_short (h : GoString) (hlen : h.length < 15) :
    ParseHostname h = parseFailure h := by
  unfold ParseHostname parseFailure
  rw [if_pos hlen]

theorem ParseHostname_long (h : GoString) (hlen : 15 ≤ h.length) :
    ParseHostname h =
      match Split dot (scopePart h) with
      | [p0, p1] => { service := p0, region := p1, err := none }
      | [p0] => { service := p0, region := UsEast1RegionID, err := none }
      | _ => parseFailure h := by
  unfold ParseHostname parseFailure scopePart
  rw [if_neg (by omega)]

theorem scopePart_append (p t : GoString) (ht : t.length = 14) :
    scopePart (p ++ t) = p := by
  unfold scopePart
  apply List.take_left'
  simp [ht]

theorem ParseHostname_three_or_more (h : GoString) (hlen : 15 ≤ h.length)
    (hseg : 3 ≤ (Split dot (scopePart h)).length) :
    ParseHostname h = parseFailure h := by
  rw [ParseHostname_long h hlen]
  split
  · rename_i heq; rw [heq] at hseg; simp at hseg
  · rename_i heq; rw [heq] at hseg; simp at hseg
  · rfl

theorem ParseHostname_err_none_iff (h : GoString) :
    (ParseHostname h).err = none ↔ 15 ≤ h.length ∧ (scopePart h).count dot ≤ 1 := by
  by_cases hlen : h.length < 15
  · rw [ParseHostname_short h hlen]
    simp [parseFailure]
    omega
  · have hlen' : 15 ≤ h.length := by omega
    have hcount := Split_length dot (scopePart h)
    rw [ParseHostname_long h hlen']
    split
    · rename_i heq
      rw [heq] at hcount
      simp at hcount
      simp [hlen']
      omega
    · rename_i heq
      rw [heq] at hcount
      simp at hcount
      simp [hlen']
      omega
    · rename_i hne2 hne1
      simp only [parseFailure, reduceCtorEq, false_iff, not_and, not_le]
      intro _
      cases hsp : Split dot (scopePart h) with
      | nil => exact absurd hsp (Split_ne_nil _ _)
      | cons a rest =>
        cases rest with
        | nil => exact absurd hsp (hne1 a)
        | cons b rest2 =>
          cases rest2 with
          | nil => exact absurd hsp (hne2 a b)
          | cons c rest3 =>
            rw [hsp] at hcount
            simp at hcount
            omega

theorem ParseHostname_two_parts (h p0 p1 : GoString) (hlen : 15 ≤ h.length)
    (hsp : Split dot (scopePart h) = [p0, p1]) :
    ParseHostname h = { service := p0, region := p1, err := none } := by
  rw [ParseHostname_long h hlen, hsp]

theorem ParseHostname_one_part (h p0 : GoString) (hlen : 15 ≤ h.length)
    (hsp : Split dot (scopePart h) = [p0]) :
    ParseHostname h = { service := p0, region := UsEast1RegionID, err := none } := by
  rw [ParseHostname_long h hlen, hsp]

theorem ParseHostname_failure_iff (h : GoString) :
    ((ParseHostname h).err ≠ none ∧ (ParseHostname h).service = [] ∧
        (ParseHostname h).region = []) ↔
      (h.length < 15 ∨ 2 ≤ (scopePart h).count dot) := by
  constructor
  · rintro ⟨herr, -, -⟩
    have := (ParseHostname_err_none_iff h).not.1 herr
    omega
  · intro hcase
    have hfail : ParseHostname h = parseFailure h := by
      rcases hcase with hlen | hdots
      · exact ParseHostname_short h hlen
      · by_cases hlen : h.length < 15
        · exact ParseHostname_short h hlen
        · apply ParseHostname_three_or_more h (by omega)
          rw [Split_length]
          omega
    rw [hfail]
    simp [parseFailure]

/-! ## The claims about `ParseHostname` -/

/-- C1: for dot-free `service` and `region`, `ParseHostname` of
`service + "." + region + ".amazonaws.com"` returns exactly `(service, region)`
with a nil error. -/
theorem ParseHostname_service_region (service region : GoString)
    (hs : dot ∉ service) (hr : dot ∉ region) :
    ParseHostname (service ++ str "." ++ region ++ str ".amazonaws.com") =
      { service := service, region := region, err := none } := by
  have hsc : scopePart (service ++ str "." ++ region ++ str ".amazonaws.com") =
      service ++ dot :: region := by
    rw [scopePart_append _ _ baseDomain_length, str_dot]
    simp
  apply ParseHostname_two_parts
  · simp [baseDomain_length, str_dot]
    omega
  · rw [hsc, Split_append_sep dot service region hs, Split_of_not_mem dot region hr]

/-- The instance of C1 tested by the package: `ec2.us-west-2.amazonaws.com`. -/
theorem ParseHostname_service_region_witness :
    (dot ∉ str "ec2" ∧ dot ∉ str "us-west-2") ∧
      ParseHostname (str "ec2" ++ str "." ++ str "us-west-2" ++ str ".amazonaws.com") =
        { service := str "ec2", region := str "us-west-2", err := none } :=
  ⟨by decide, ParseHostname_service_region (str "ec2") (str "us-west-2") (by decide) (by decide)⟩

/-- C2: for a non-empty dot-free `service`, `ParseHostname` of
`service + ".amazonaws.com"` returns `(service, "us-east-1")` with a nil error,
whatever the service name is. -/
theorem ParseHostname_default_region (service : GoString)
    (hne : service ≠ []) (hs : dot ∉ service) :
    ParseHostname (service ++ str ".amazonaws.com") =
      { service := service, region := str "us-east-1", err := none } := by
  have hpos : 0 < service.length := List.length_pos.2 hne
  apply ParseHostname_one_part
  · simp [baseDomain_length]
    omega
  · rw [scopePart_append _ _ baseDomain_length, Split_of_not_mem dot service hs]

/-- The instances of C2 named by the package: `iam.amazonaws.com` (tested) and
`ec200.amazonaws.com` (documented). -/
theorem ParseHostname_default_region_witness :
    ParseHostname (str "iam" ++ str ".amazonaws.com") =
        { service := str "iam", region := str "us-east-1", err := none } ∧
      ParseHostname (str "ec200" ++ str ".amazonaws.com") =
        { service := str "ec200", region := str "us-east-1", err := none } :=
  ⟨ParseHostname_default_region (str "iam") (by decide) (by decide),
   ParseHostname_default_region (str "ec200") (by decide) (by decide)⟩

/-- C3, as stated, fails: `localhost.localdomain` does not end in `.amazonaws.com`,
yet `ParseHostname` accepts it, as service `localho` in region `us-east-1`. -/
theorem ParseHostname_accepts_localdomain :
    ¬ (str ".amazonaws.com" <:+ str "localhost.localdomain") ∧
      ParseHostname (str "localhost.localdomain") =
        { service := str "localho", region := str "us-east-1", err := none } := by
  decide

/-- C3, amended: a hostname that does not end in `.amazonaws.com` is rejected
(non-nil error, empty service and region) exactly when it is shorter than 15
bytes or has two or more `.` before its final 14 bytes, and then the result is
the parse failure; any other such hostname is accepted with a nil error: without
a `.` before its final 14 bytes that part is the service and the region is
`us-east-1`, and with one `.` the service and the region are the dot-free parts
before and after it. -/
theorem ParseHostname_foreign_suffix (h : GoString)
    (_hsuffix : ¬ (str ".amazonaws.com" <:+ h)) :
    (((ParseHostname h).err ≠ none ∧ (ParseHostname h).service = [] ∧
        (ParseHostname h).region = []) ↔
      (h.length < 15 ∨ 2 ≤ (scopePart h).count dot)) ∧
    ((h.length < 15 ∨ 2 ≤ (scopePart h).count dot) →
      ParseHostname h = parseFailure h) ∧
    (¬ (h.length < 15 ∨ 2 ≤ (scopePart h).count dot) → (ParseHostname h).err = none) ∧
    (15 ≤ h.length → (scopePart h).count dot = 0 →
      ParseHostname h =
        { service := scopePart h, region := str "us-east-1", err := none }) ∧
    (15 ≤ h.length → (scopePart h).count dot = 1 →
      (ParseHostname h).err = none ∧
        scopePart h = (ParseHostname h).service ++ str "." ++ (ParseHostname h).region ∧
        dot ∉ (ParseHostname h).service ∧ dot ∉ (ParseHostname h).region) := by
  refine ⟨ParseHostname_failure_iff h, ?_, ?_, ?_, ?_⟩
  · rintro (hlen | hdots)
    · exact ParseHostname_short h hlen
    · by_cases hlen : h.length < 15
      · exact ParseHostname_short h hlen
      · apply ParseHostname_three_or_more h (by omega)
        rw [Split_length]
        omega
  · intro hnot
    rw [ParseHostname_err_none_iff]
    omega
  · intro hlen hzero
    apply ParseHostname_one_part h _ hlen
    exact Split_of_not_mem dot _ (List.count_eq_zero.1 hzero)
  · intro hlen hone
    have hcount := Split_length dot (scopePart h)
    have hjoin := Join_Split dot (scopePart h)
    have hmem := Split_not_mem dot (scopePart h)
    rw [hone] at hcount
    cases hsp : Split dot (scopePart h) with
    | nil => rw [hsp] at hcount; simp at hcount
    | cons p0 rest =>
      cases rest with
      | nil => rw [hsp] at hcount; simp at hcount
      | cons p1 rest2 =>
        cases rest2 with
        | cons p2 rest3 => rw [hsp] at hcount; simp at hcount
        | nil =>
          rw [hsp] at hjoin hmem
          rw [ParseHostname_two_parts h p0 p1 hlen hsp]
          refine ⟨rfl, ?_, hmem p0 (by simp), hmem p1 (by simp)⟩
          simp only [str_dot]
          simpa [Join] using hjoin.symm

/-- The instances of amended C3: `localhost`, tested by the package, is rejected;
`localhost.localdomain` is accepted as service `localho` in `us-east-1`. -/
theorem ParseHostname_foreign_suffix_witness :
    (¬ (str ".amazonaws.com" <:+ str "localhost") ∧
      ((ParseHostname (str "localhost")).err ≠ none ∧
        (ParseHostname (str "localhost")).service = [] ∧
        (ParseHostname (str "localhost")).region = [])) ∧
    (¬ (str ".amazonaws.com" <:+ str "localhost.localdomain") ∧
      ParseHostname (str "localhost.localdomain") =
        { service := scopePart (str "localhost.localdomain"), region := str "us-east-1",
          err := none }) :=
  ⟨⟨by decide, (ParseHostname_foreign_suffix (str "localhost") (by decide)).1.2
      (Or.inl (by decide))⟩,
   ⟨by decide, (ParseHostname_foreign_suffix (str "localhost.localdomain") (by decide)).2.2.2.1
      (by decide) (by decide)⟩⟩

/-- C4: a hostname shorter than 15 bytes is rejected with a non-nil error, an
empty service and an empty region. -/
theorem ParseHostname_too_short (h : GoString) (hlen : h.length < 15) :
    (ParseHostname h).err = some (parseDomainError h) ∧
      (ParseHostname h).service = [] ∧ (ParseHostname h).region = [] := by
  rw [ParseHostname_short h hlen]
  simp [parseFailure]

/-- The instances of C4 named by the claim: the bare base domain `amazonaws.com`
and `.amazonaws.com`. -/
theorem ParseHostname_too_short_witness :
    ((str "amazonaws.com").length < 15 ∧
      (ParseHostname (str "amazonaws.com")).err =
        some (parseDomainError (str "amazonaws.com")) ∧
      (ParseHostname (str "amazonaws.com")).service = [] ∧
      (ParseHostname (str "amazonaws.com")).region = []) ∧
    ((str ".amazonaws.com").length < 15 ∧
      (ParseHostname (str ".amazonaws.com")).err =
        some (parseDomainError (str ".amazonaws.com")) ∧
      (ParseHostname (str ".amazonaws.com")).service = [] ∧
      (ParseHostname (str ".amazonaws.com")).region = []) :=
  ⟨⟨by decide, ParseHostname_too_short (str "amazonaws.com") (by decide)⟩,
   ⟨by decide, ParseHostname_too_short (str ".amazonaws.com") (by decide)⟩⟩

/-- C5: for a hostname of at least 15 bytes, the part before the final 14 bytes
splits into three or more segments exactly when it contains two or more `.`; then
`ParseHostname` returns a non-nil error with an empty service and region; and
`ParseHostname` succeeds only for one or two segments. -/
theorem ParseHostname_segment_count (h : GoString) (hlen : 15 ≤ h.length) :
    (3 ≤ (Split dot (scopePart h)).length ↔ 2 ≤ (scopePart h).count dot) ∧
    (3 ≤ (Split dot (scopePart h)).length →
      (ParseHostname h).err = some (parseDomainError h) ∧
        (ParseHostname h).service = [] ∧ (ParseHostname h).region = []) ∧
    ((ParseHostname h).err = none ↔
      (Split dot (scopePart h)).length = 1 ∨ (Split dot (scopePart h)).length = 2) := by
  refine ⟨?_, ?_, ?_⟩
  · rw [Split_length]
    omega
  · intro hseg
    rw [ParseHostname_three_or_more h hlen hseg]
    simp [parseFailure]
  · rw [ParseHostname_err_none_iff, Split_length]
    omega

/-- An instance of C5: `a.b.c.amazonaws.com` has three segments and is rejected. -/
theorem ParseHostname_segment_count_witness :
    15 ≤ (str "a.b.c.amazonaws.com").length ∧
      (Split dot (scopePart (str "a.b.c.amazonaws.com"))).length = 3 ∧
      (ParseHostname (str "a.b.c.amazonaws.com")).err =
          some (parseDomainError (str "a.b.c.amazonaws.com")) ∧
        (ParseHostname (str "a.b.c.amazonaws.com")).service = [] ∧
        (ParseHostname (str "a.b.c.amazonaws.com")).region = [] :=
  ⟨by decide, by decide,
    (ParseHostname_segment_count (str "a.b.c.amazonaws.com") (by decide)).2.1 (by decide)⟩

/-! ## Facts about `Do` -/

section DoFacts

variable {σ Creds Body Response : Type}

theorem wrapInt64_of_fits (x : Int) (hlo : -(2 ^ 63) ≤ x) (hhi : x < 2 ^ 63) :
    wrapInt64 x = x := by
  unfold wrapInt64
  omega

theorem wrapInt64_range (x : Int) : -(2 ^ 63) ≤ wrapInt64 x ∧ wrapInt64 x < 2 ^ 63 := by
  unfold wrapInt64
  omega

theorem Since_eq_sub (start now : MonoTime) :
    Since start now = (now.val : Int) - (start.val : Int) := by
  have h1 := start.isLt
  have h2 := now.isLt
  unfold Since subMono
  simp only []
  rw [wrapInt64_of_fits _ (by omega) (by omega)]
  split_ifs <;> omega

theorem Do_of_parse_err (env : Env σ Creds Body Response) (input : Input Creds Body)
    (w : σ) (e : GoError) (h : (ParseHostname input.Req.URL.Host).err = some e) :
    Do env input w =
      { output := none, err := some (WithStack e), req := input.Req, world := w,
        trace := [] } := by
  unfold Do
  simp only [h]

theorem Do_of_sign_err (env : Env σ Creds Body Response) (input : Input Creds Body)
    (w : σ) (e : GoError) (hp : parseOk input) (hs : (signStage env input w).1.2 = some e) :
    Do env input w =
      { output := none, err := some (Wrap e (str "failed to sign request")),
        req := (signStage env input w).1.1, world := (signStage env input w).2,
        trace := [.now (env.now w).1, signEvent env input w] } := by
  unfold signStage at hs
  unfold Do signStage signEvent
  cases hb : input.Body <;> simp only [hb] at hs <;> simp only [hp, hs]

theorem Do_of_client_err (env : Env σ Creds Body Response) (input : Input Creds Body)
    (w : σ) (e : GoError) (hp : parseOk input) (hs : signOk env input w)
    (hc : (clientStage env input w).1.2 = some e) :
    Do env input w =
      { output := none, err := some (Wrap e (str "failed to perform request")),
        req := (signStage env input w).1.1, world := (clientStage env input w).2,
        trace := [.now (env.now w).1, signEvent env input w,
          .now (reqStart env input w).1, .clientDo (signStage env input w).1.1] } := by
  unfold clientStage reqStart signStage at hc
  unfold signOk signStage at hs
  unfold Do clientStage reqStart signStage signEvent
  cases hb : input.Body <;> simp only [hb] at hs hc <;> simp only [hp, hs, hc]

theorem Do_of_ok (env : Env σ Creds Body Response) (input : Input Creds Body)
    (w : σ) (hp : parseOk input) (hs : signOk env input w) (hc : clientOk env input w) :
    Do env input w =
      { output := some { Res := (clientStage env input w).1.1,
                         TotalTime := Since (reqStart env input w).1 (reqEnd env input w).1 },
        err := none,
        req := (signStage env input w).1.1, world := (reqEnd env input w).2,
        trace := [.now (env.now w).1, signEvent env input w,
          .now (reqStart env input w).1, .clientDo (signStage env input w).1.1,
          .now (reqEnd env input w).1] } := by
  unfold clientOk clientStage reqStart signStage at hc
  unfold signOk signStage at hs
  unfold Do reqEnd clientStage reqStart signStage signEvent
  cases hb : input.Body <;> simp only [hb] at hs hc <;> simp only [hp, hs, hc]

theorem Do_cases (env : Env σ Creds Body Response) (input : Input Creds Body) (w : σ) :
    (∃ e, (ParseHostname input.Req.URL.Host).err = some e) ∨
    (parseOk input ∧ ∃ e, (signStage env input w).1.2 = some e) ∨
    (parseOk input ∧ signOk env input w ∧ ∃ e, (clientStage env input w).1.2 = some e) ∨
    (parseOk input ∧ signOk env input w ∧ clientOk env input w) := by
  cases hp : (ParseHostname input.Req.URL.Host).err with
  | some e => exact Or.inl ⟨e, rfl⟩
  | none =>
    cases hs : (signStage env input w).1.2 with
    | some e => exact Or.inr (Or.inl ⟨hp, e, rfl⟩)
    | none =>
      cases hc : (clientStage env input w).1.2 with
      | some e => exact Or.inr (Or.inr (Or.inl ⟨hp, hs, e, rfl⟩))
      | none => exact Or.inr (Or.inr (Or.inr ⟨hp, hs, hc⟩))

theorem signStage_logged (env : Env σ Creds Body Response) (input : Input Creds Body)
    (w : σ) (log : List (Event Creds Body)) :
    signStage (logged env) input (w, log) =
      ((signStage env input w).1,
        ((signStage env input w).2, log ++ [.now (env.now w).1, signEvent env input w])) := by
  simp [signStage, signEvent, logged]

theorem signEvent_logged (env : Env σ Creds Body Response) (input : Input Creds Body)
    (w : σ) (log : List (Event Creds Body)) :
    signEvent (logged env) input (w, log) = signEvent env input w := rfl

theorem reqStart_logged (env : Env σ Creds Body Response) (input : Input Creds Body)
    (w : σ) (log : List (Event Creds Body)) :
    reqStart (logged env) input (w, log) =
      ((reqStart env input w).1,
        ((reqStart env input w).2,
          log ++ [.now (env.now w).1, signEvent env input w,
            .now (reqStart env input w).1])) := by
  unfold reqStart
  rw [signStage_logged]
  simp [logged]

theorem clientStage_logged (env : Env σ Creds Body Response) (input : Input Creds Body)
    (w : σ) (log : List (Event Creds Body)) :
    clientStage (logged env) input (w, log) =
      ((clientStage env input w).1,
        ((clientStage env input w).2,
          log ++ [.now (env.now w).1, signEvent env input w,
            .now (reqStart env input w).1, .clientDo (signStage env input w).1.1])) := by
  unfold clientStage
  rw [reqStart_logged, signStage_logged]
  simp [logged]

theorem reqEnd_logged (env : Env σ Creds Body Response) (input : Input Creds Body)
    (w : σ) (log : List (Event Creds Body)) :
    reqEnd (logged env) input (w, log) =
      ((reqEnd env input w).1,
        ((reqEnd env input w).2,
          log ++ [.now (env.now w).1, signEvent env input w,
            .now (reqStart env input w).1, .clientDo (signStage env input w).1.1,
            .now (reqEnd env input w).1])) := by
  unfold reqEnd
  rw [clientStage_logged]
  simp [logged]

/-- The trace that `Do` reports is the log of the calls really made: on the
recording environment `Do` returns the same results and leaves the reported
trace appended to the log. -/
theorem Do_logged (env : Env σ Creds Body Response) (input : Input Creds Body)
    (w : σ) (log : List (Event Creds Body)) :
    Do (logged env) input (w, log) =
      { output := (Do env input w).output, err := (Do env input w).err,
        req := (Do env input w).req,
        world := ((Do env input w).world, log ++ (Do env input w).trace),
        trace := (Do env input w).trace } := by
  rcases Do_cases env input w with ⟨e, hp⟩ | ⟨hp, e, hs⟩ | ⟨hp, hs, e, hc⟩ | ⟨hp, hs, hc⟩
  · rw [Do_of_parse_err env input w e hp, Do_of_parse_err (logged env) input (w, log) e hp]
    simp
  · have hs' : (signStage (logged env) input (w, log)).1.2 = some e := by
      rw [signStage_logged]; exact hs
    rw [Do_of_sign_err env input w e hp hs,
      Do_of_sign_err (logged env) input (w, log) e hp hs']
    simp only [signStage_logged, signEvent_logged]
    simp [logged]
  · have hs' : signOk (logged env) input (w, log) := by
      unfold signOk; rw [signStage_logged]; exact hs
    have hc' : (clientStage (logged env) input (w, log)).1.2 = some e := by
      rw [clientStage_logged]; exact hc
    rw [Do_of_client_err env input w e hp hs hc,
      Do_of_client_err (logged env) input (w, log) e hp hs' hc']
    simp only [clientStage_logged, reqStart_logged, signStage_logged, signEvent_logged]
    simp [logged]
  · have hs' : signOk (logged env) input (w, log) := by
      unfold signOk; rw [signStage_logged]; exact hs
    have hc' : clientOk (logged env) input (w, log) := by
      unfold clientOk; rw [clientStage_logged]; exact hc
    rw [Do_of_ok env input w hp hs hc, Do_of_ok (logged env) input (w, log) hp hs' hc']
    simp only [reqEnd_logged, clientStage_logged, reqStart_logged, signStage_logged,
      signEvent_logged]
    simp [logged]

theorem callLog_eq_trace (env : Env σ Creds Body Response) (input : Input Creds Body)
    (w : σ) : callLog env input w = (Do env input w).trace := by
  unfold callLog
  rw [Do_logged]
  simp

end DoFacts

/-! ## The claims about the documented API Gateway hosts -/

/-- C6 fails on the code: the host of the documented API Gateway examples,
`X.execute-api.us-east-1.amazonaws.com`, is rejected by `ParseHostname`, as is
every host `<id>.execute-api.<region>.amazonaws.com`, and `Do` on the documented
request returns the parse error without calling the signer or the client. -/
theorem ParseHostname_execute_api_rejected :
    ParseHostname (str "X.execute-api.us-east-1.amazonaws.com") =
        parseFailure (str "X.execute-api.us-east-1.amazonaws.com") ∧
    (∀ id region : GoString,
      ParseHostname (id ++ str ".execute-api." ++ region ++ str ".amazonaws.com") =
        parseFailure (id ++ str ".execute-api." ++ region ++ str ".amazonaws.com")) ∧
    Do demoEnv demoGateway 0 =
      { output := none
        err := some (parseDomainError (str "X.execute-api.us-east-1.amazonaws.com"))
        req := demoGateway.Req, world := 0, trace := [] } := by
  refine ⟨by decide, ?_, by decide⟩
  intro id region
  have hmid : (str ".execute-api.").count dot = 2 := by decide
  have hmidlen : (str ".execute-api.").length = 13 := by decide
  apply ParseHostname_three_or_more
  · simp [baseDomain_length, hmidlen]
    omega
  · rw [Split_length, scopePart_append _ _ baseDomain_length]
    simp only [List.count_append, hmid]
    omega

/-! ## The claims about `Do` -/

section DoClaims

variable {σ Creds Body Response : Type}

/-- C7: `Do` runs parse, sign and send in order and stops at the first failure.
The calls are those recorded by the environment itself (`callLog`), and the world
and the request that `Do` leaves are those of the stage it stopped at.
(a) When `ParseHostname` fails nothing is called and the request and the world are
untouched; (b) when the signer fails the signer alone has been applied, once;
(c) when both succeed the signer and then the client have been applied, once each,
and the client is never called more than once; (d) `Do` returns an output with a
nil error exactly when all three stages succeed, and otherwise no output with a
non-nil error. -/
theorem Do_stages (env : Env σ Creds Body Response) (input : Input Creds Body) (w : σ) :
    callLog env input w = (Do env input w).trace ∧
    (¬ parseOk input →
      callLog env input w = [] ∧ (Do env input w).trace = [] ∧
        (Do env input w).req = input.Req ∧ (Do env input w).world = w) ∧
    (parseOk input → ¬ signOk env input w →
      calls (callLog env input w) = [.signer] ∧ calls (Do env input w).trace = [.signer] ∧
        (Do env input w).req = (signStage env input w).1.1 ∧
        (Do env input w).world = (signStage env input w).2) ∧
    (parseOk input → signOk env input w →
      calls (callLog env input w) = [.signer, .client] ∧
        calls (Do env input w).trace = [.signer, .client] ∧
        (Do env input w).req = (signStage env input w).1.1) ∧
    (parseOk input → signOk env input w → ¬ clientOk env input w →
      (Do env input w).world = (clientStage env input w).2) ∧
    (parseOk input → signOk env input w → clientOk env input w →
      (Do env input w).world = (reqEnd env input w).2 ∧
        (Do env input w).output =
          some { Res := (clientStage env input w).1.1,
                 TotalTime := Since (reqStart env input w).1 (reqEnd env input w).1 }) ∧
    (calls (callLog env input w)).count .client ≤ 1 ∧
    (calls (Do env input w).trace).count .client ≤ 1 ∧
    (((Do env input w).output ≠ none ∧ (Do env input w).err = none) ↔
      (parseOk input ∧ signOk env input w ∧ clientOk env input w)) ∧
    (¬ (parseOk input ∧ signOk env input w ∧ clientOk env input w) →
      (Do env input w).output = none ∧ (Do env input w).err ≠ none) := by
  refine ⟨callLog_eq_trace env input w, ?_⟩
  rw [callLog_eq_trace]
  rcases Do_cases env input w with ⟨e, hp⟩ | ⟨hp, e, hs⟩ | ⟨hp, hs, e, hc⟩ | ⟨hp, hs, hc⟩
  · rw [Do_of_parse_err env input w e hp]
    simp [parseOk, hp, calls]
  · rw [Do_of_sign_err env input w e hp hs]
    simp [signOk, hp, hs, calls, signEvent]
  · rw [Do_of_client_err env input w e hp hs hc]
    simp [clientOk, hp, hs, hc, calls, signEvent]
  · rw [Do_of_ok env input w hp hs hc]
    simp [calls, signEvent]
    tauto

/-- C7 on the documented EC2 request: all three stages succeed, the recorded calls
are the signer and then the client, the world has advanced by the 3 ns of one
signature and the 40 ns of one round trip, and an output comes back with a nil
error. -/
theorem Do_stages_witness :
    (parseOk demoInput ∧ signOk demoEnv demoInput 0 ∧ clientOk demoEnv demoInput 0) ∧
      (calls (callLog demoEnv demoInput 0) = [.signer, .client] ∧
        calls (Do demoEnv demoInput 0).trace = [.signer, .client] ∧
        (Do demoEnv demoInput 0).req = (signStage demoEnv demoInput 0).1.1) ∧
      (Do demoEnv demoInput 0).world = 43 ∧
      ((Do demoEnv demoInput 0).output ≠ none ∧ (Do demoEnv demoInput 0).err = none) :=
  ⟨by decide, (Do_stages demoEnv demoInput 0).2.2.2.1 (by decide) (by decide),
    ((Do_stages demoEnv demoInput 0).2.2.2.2.2.1 (by decide) (by decide) (by decide)).1.trans
      (by decide),
    (Do_stages demoEnv demoInput 0).2.2.2.2.2.2.2.2.1.2 (by decide)⟩

/-- C8: the scope handed to the signer is exactly the `(service, region)` that
`ParseHostname` returns for the URL host.  In the calls recorded by the
environment itself, the signer is applied once when parsing succeeds, to the
credentials, request and body of the input (present or nil), that scope and the
clock reading just taken, and never otherwise; the request `Do` leaves is the one
this application of the signer returns.  So two runs of `Do` on inputs with the
same URL host hand the signer the same scope, whatever the other request fields,
the body and the credentials are. -/
theorem Do_signer_scope {σ' Creds' Body' Response' : Type}
    (env : Env σ Creds Body Response) (input : Input Creds Body) (w : σ)
    (env' : Env σ' Creds' Body' Response') (input' : Input Creds' Body') (w' : σ')
    (hhost : input.Req.URL.Host = input'.Req.URL.Host) :
    signerScopes (callLog env input w) =
        (if parseOk input then
          [((ParseHostname input.Req.URL.Host).service,
            (ParseHostname input.Req.URL.Host).region)]
        else []) ∧
      signerScopes (callLog env' input' w') = signerScopes (callLog env input w) ∧
      (¬ parseOk input → callLog env input w = []) ∧
      (parseOk input →
        (callLog env input w).take 2 =
            [.now (env.now w).1,
              .sign input.Creds input.Req input.Body
                (ParseHostname input.Req.URL.Host).service
                (ParseHostname input.Req.URL.Host).region (env.now w).1] ∧
          (Do env input w).req =
            (env.sign input.Creds input.Req input.Body
              (ParseHostname input.Req.URL.Host).service
              (ParseHostname input.Req.URL.Host).region (env.now w).1 (env.now w).2).1.1) ∧
      signerScopes (Do env input w).trace = signerScopes (callLog env input w) := by
  have key : ∀ {σ₁ C₁ B₁ R₁ : Type} (env₁ : Env σ₁ C₁ B₁ R₁) (input₁ : Input C₁ B₁) (w₁ : σ₁),
      signerScopes (callLog env₁ input₁ w₁) =
        (if parseOk input₁ then
          [((ParseHostname input₁.Req.URL.Host).service,
            (ParseHostname input₁.Req.URL.Host).region)]
        else []) := by
    intro σ₁ C₁ B₁ R₁ env₁ input₁ w₁
    rw [callLog_eq_trace]
    rcases Do_cases env₁ input₁ w₁ with ⟨e, hp⟩ | ⟨hp, e, hs⟩ | ⟨hp, hs, e, hc⟩ | ⟨hp, hs, hc⟩
    · rw [Do_of_parse_err env₁ input₁ w₁ e hp]
      simp [parseOk, hp, signerScopes]
    · rw [Do_of_sign_err env₁ input₁ w₁ e hp hs, if_pos hp]
      simp [signerScopes, signEvent]
    · rw [Do_of_client_err env₁ input₁ w₁ e hp hs hc, if_pos hp]
      simp [signerScopes, signEvent]
    · rw [Do_of_ok env₁ input₁ w₁ hp hs hc, if_pos hp]
      simp [signerScopes, signEvent]
  refine ⟨key env input w, ?_, ?_, ?_, by rw [callLog_eq_trace]⟩
  · rw [key env input w, key env' input' w']
    simp only [parseOk, hhost]
  · intro hnp
    rw [callLog_eq_trace]
    rcases Do_cases env input w with ⟨e, hp⟩ | ⟨hp, _⟩ | ⟨hp, _⟩ | ⟨hp, _⟩
    · rw [Do_of_parse_err env input w e hp]
    · exact absurd hp hnp
    · exact absurd hp hnp
    · exact absurd hp hnp
  · intro hp
    rw [callLog_eq_trace]
    rcases Do_cases env input w with ⟨e, hp'⟩ | ⟨_, e, hs⟩ | ⟨_, hs, e, hc⟩ | ⟨_, hs, hc⟩
    · rw [hp] at hp'
      exact absurd hp' (by simp)
    · rw [Do_of_sign_err env input w e hp hs]
      exact ⟨rfl, rfl⟩
    · rw [Do_of_client_err env input w e hp hs hc]
      exact ⟨rfl, rfl⟩
    · rw [Do_of_ok env input w hp hs hc]
      exact ⟨rfl, rfl⟩

/-- C8 on two requests to `ec2.amazonaws.com`: a `GET` without a body and a `POST`
with a body and other credentials both have the signer applied for
`("ec2", "us-east-1")`, and the `POST` comes back carrying the header that the
signer wrote from its credentials and that scope. -/
theorem Do_signer_scope_witness :
    demoInput.Req.URL.Host = demoPost.Req.URL.Host ∧
      signerScopes (callLog demoEnv demoInput 0) = [(str "ec2", str "us-east-1")] ∧
      signerScopes (callLog demoEnv demoPost 7) =
        signerScopes (callLog demoEnv demoInput 0) ∧
      (Do demoEnv demoPost 7).req.Header.head? =
        some (str "Authorization", [str "AKIDOTHERec2us-east-1"]) :=
  ⟨by decide,
    (Do_signer_scope demoEnv demoInput 0 demoEnv demoPost 7 (by decide)).1.trans (by decide),
    (Do_signer_scope demoEnv demoInput 0 demoEnv demoPost 7 (by decide)).2.1,
    by decide⟩

/-- C9: on a successful `Do` the calls are: clock, signer, clock (`reqStart`),
client, clock; `TotalTime` is the last reading minus `reqStart`, so it leaves out
parsing and signing, and it is non-negative when the clock did not go back between
the two readings. -/
theorem Do_totalTime (env : Env σ Creds Body Response) (input : Input Creds Body) (w : σ)
    (out : Output Response) (hout : (Do env input w).output = some out) :
    (Do env input w).trace =
        [.now (env.now w).1, signEvent env input w, .now (reqStart env input w).1,
          .clientDo (signStage env input w).1.1, .now (reqEnd env input w).1] ∧
      out.TotalTime =
        ((reqEnd env input w).1.val : Int) - ((reqStart env input w).1.val : Int) ∧
      ((reqStart env input w).1 ≤ (reqEnd env input w).1 → 0 ≤ out.TotalTime) := by
  rcases Do_cases env input w with ⟨e, hp⟩ | ⟨hp, e, hs⟩ | ⟨hp, hs, e, hc⟩ | ⟨hp, hs, hc⟩
  · rw [Do_of_parse_err env input w e hp] at hout
    simp at hout
  · rw [Do_of_sign_err env input w e hp hs] at hout
    simp at hout
  · rw [Do_of_client_err env input w e hp hs hc] at hout
    simp at hout
  · rw [Do_of_ok env input w hp hs hc] at hout ⊢
    simp only [Option.some.injEq] at hout
    subst hout
    refine ⟨rfl, Since_eq_sub _ _, ?_⟩
    intro hle
    have hle' : (reqStart env input w).1.val ≤ (reqEnd env input w).1.val := hle
    simp only [Since_eq_sub]
    omega

/-- C9 on the documented EC2 request: the signer takes 3 ns and the client 40 ns;
`TotalTime` is the 40 ns of the round trip. -/
theorem Do_totalTime_witness :
    (Do demoEnv demoInput 0).output = some { Res := some 200, TotalTime := 40 } ∧
      (reqStart demoEnv demoInput 0).1.val = 3 ∧ (reqEnd demoEnv demoInput 0).1.val = 43 ∧
      (40 : Int) = ((reqEnd demoEnv demoInput 0).1.val : Int) -
        ((reqStart demoEnv demoInput 0).1.val : Int) :=
  ⟨by decide, by decide, by decide,
    (Do_totalTime demoEnv demoInput 0 { Res := some 200, TotalTime := 40 } (by decide)).2.1⟩

end DoClaims

/-! ## The last fourteen bytes -/

/-- C10: `ParseHostname` succeeds exactly on hostnames of at least 15 bytes whose
part before the final 14 bytes has at most one `.`; on success that part is the
service (and the region is `us-east-1`) or `service + "." + region`, and the service
has no `.`; so two hostnames of at least 15 bytes that differ only in their final
14 bytes get the same service, the same region and the same success or failure. -/
theorem ParseHostname_ignores_suffix (h : GoString) :
    ((ParseHostname h).err = none ↔ 15 ≤ h.length ∧ (scopePart h).count dot ≤ 1) ∧
    ((ParseHostname h).err = none →
      ((scopePart h = (ParseHostname h).service ∧
          (ParseHostname h).region = str "us-east-1") ∨
        scopePart h = (ParseHostname h).service ++ str "." ++ (ParseHostname h).region) ∧
      dot ∉ (ParseHostname h).service) ∧
    (∀ h' : GoString, 15 ≤ h.length → 15 ≤ h'.length → scopePart h = scopePart h' →
      (ParseHostname h).service = (ParseHostname h').service ∧
      (ParseHostname h).region = (ParseHostname h').region ∧
      ((ParseHostname h).err = none ↔ (ParseHostname h').err = none)) := by
  refine ⟨ParseHostname_err_none_iff h, ?_, ?_⟩
  · intro hok
    have hlen : 15 ≤ h.length := ((ParseHostname_err_none_iff h).1 hok).1
    have hjoin := Join_Split dot (scopePart h)
    have hmem := Split_not_mem dot (scopePart h)
    rw [ParseHostname_long h hlen] at hok ⊢
    split at hok
    · rename_i p0 p1 heq
      rw [heq] at hjoin hmem
      simp only [heq, str_dot]
      refine ⟨Or.inr ?_, hmem p0 (by simp)⟩
      simpa [Join] using hjoin.symm
    · rename_i p0 heq
      rw [heq] at hjoin hmem
      simp only [heq]
      refine ⟨Or.inl ⟨by simpa [Join] using hjoin.symm, rfl⟩, hmem p0 (by simp)⟩
    · simp [parseFailure] at hok
  · intro h' hlen hlen' hsame
    rw [ParseHostname_long h hlen, ParseHostname_long h' hlen', hsame]
    split <;> simp [parseFailure]

/-- C10 on `ec2.us-west-2.amazonaws.com` and `ec2.us-west-2.example-1.org`, which
differ only in their final 14 bytes: both resolve to `("ec2", "us-west-2")`. -/
theorem ParseHostname_ignores_suffix_witness :
    scopePart (str "ec2.us-west-2.amazonaws.com") =
        scopePart (str "ec2.us-west-2.example-1.org") ∧
      ParseHostname (str "ec2.us-west-2.example-1.org") =
        { service := str "ec2", region := str "us-west-2", err := none } ∧
      ((ParseHostname (str "ec2.us-west-2.amazonaws.com")).service =
          (ParseHostname (str "ec2.us-west-2.example-1.org")).service ∧
        (ParseHostname (str "ec2.us-west-2.amazonaws.com")).region =
          (ParseHostname (str "ec2.us-west-2.example-1.org")).region ∧
        ((ParseHostname (str "ec2.us-west-2.amazonaws.com")).err = none ↔
          (ParseHostname (str "ec2.us-west-2.example-1.org")).err = none)) :=
  ⟨by decide, by decide,
    (ParseHostname_ignores_suffix (str "ec2.us-west-2.amazonaws.com")).2.2
      (str "ec2.us-west-2.example-1.org") (by decide) (by decide) (by decide)⟩

end AwsReq
